import Mathlib

/-!
Shallow embedding of the citation_station repository (Rust) in Lean 4,
verifying the natural-language specification against the code.

Modules embedded:
* `src/citation_station/src/api/date.rs`    — `Month` helpers, `PublishDate`, its
  constructors, accessors and `Ord` implementation.
* `src/citation_station/src/api/author.rs`  — `PersonName`, `AcademicAuthor`,
  `GenericAuthor` and their IEEE/APA renderings.
* `src/citation_station/src/api/media/book.rs`, `api/media/version.rs`,
  `api/citation.rs` — the `Book` media variant, version descriptors and the
  `Citation` dispatcher with `format_apa` / `format_ieee`.
* `src/citation_station/src/lib.rs` — the crate-root `Citation` / `Bibliography`
  model (embedded under the `Lib` namespace).

Conventions: Rust `u32`/`u16`/`usize` become `Nat`, `i32` becomes `Int` (no
arithmetic that could overflow occurs in the embedded code: only comparisons
and string formatting). Rust `panic!()` / `todo!()` is modelled by an `Option`
result being `none`; fallible constructors return `Except`. Rust strings that
flow through the `unicode_segmentation` collaborator are modelled at grapheme
granularity as `List String` (the list of grapheme clusters of the string);
`str::len() == 0` holds exactly when that list is empty, and
`first_grapheme_from_str` is the head of the list.
-/

/-- Comparison of two `Int` values with the semantics of Rust `i32::cmp`. -/
def intCmp (a b : Int) : Ordering :=
  if a < b then .lt else if a = b then .eq else .gt

/-- Comparison of two `Nat` values with the semantics of Rust `u32::cmp`. -/
def natCmp (a b : Nat) : Ordering :=
  if a < b then .lt else if a = b then .eq else .gt

/-- The 12 months, as in `chrono::Month` (variant order January..December). -/
inductive Month where
  | January | February | March | April | May | June
  | July | August | September | October | November | December
deriving DecidableEq

/-- Month number 1..12, the discriminant order used by the derived
`Ord for chrono::Month`. -/
def Month.number : Month → Nat
  | .January => 1 | .February => 2 | .March => 3 | .April => 4
  | .May => 5 | .June => 6 | .July => 7 | .August => 8
  | .September => 9 | .October => 10 | .November => 11 | .December => 12

/-- Derived `Ord for chrono::Month`: compare by variant order. -/
def Month.cmp (a b : Month) : Ordering := natCmp a.number b.number

/-- Proleptic-Gregorian leap-year test, as computed by chrono
(`year divisible by 4 and (not by 100 or by 400)`). -/
def isLeapYear (y : Int) : Bool :=
  y % 4 == 0 && (y % 100 != 0 || y % 400 == 0)

/-- `chrono::Month::num_days(year)`: days in the month; `none` only when the
year is outside the `chrono::NaiveDate` range (needed for February). -/
def Month.num_days (m : Month) (year : Int) : Option Nat :=
  match m with
  | .January => some 31
  | .February =>
      if -262143 ≤ year ∧ year ≤ 262142 then
        some (if isLeapYear year then 29 else 28)
      else none
  | .March => some 31
  | .April => some 30
  | .May => some 31
  | .June => some 30
  | .July => some 31
  | .August => some 31
  | .September => some 30
  | .October => some 31
  | .November => some 30
  | .December => some 31

/-- `ieee_abbreviated_month_name` from `api/date.rs`: the fixed 12-entry
abbreviation table. -/
def ieee_abbreviated_month_name : Month → String
  | .January => "Jan."
  | .February => "Feb."
  | .March => "Mar."
  | .April => "Apr."
  | .May => "May"
  | .June => "Jun."
  | .July => "Jul."
  | .August => "Aug."
  | .September => "Sep."
  | .October => "Oct."
  | .November => "Nov."
  | .December => "Dec."

/-- `PublishDateParamError` from `api/date.rs`. -/
inductive PublishDateParamError where
  | InvalidDayForMonth
  | OutOfRangeYear
deriving DecidableEq

/-- `PublishDate` from `api/date.rs`: year / year+month / year+month+day. -/
inductive PublishDate where
  | Year (year : Int)
  | YearMonth (year : Int) (month : Month)
  | YearMonthDay (year : Int) (month : Month) (day : Nat)
deriving DecidableEq

/-- `PublishDate::year()`. -/
def PublishDate.year : PublishDate → Int
  | .Year y => y
  | .YearMonth y _ => y
  | .YearMonthDay y _ _ => y

/-- `PublishDate::month()`. -/
def PublishDate.month : PublishDate → Option Month
  | .Year _ => none
  | .YearMonth _ m => some m
  | .YearMonthDay _ m _ => some m

/-- `PublishDate::day()`. -/
def PublishDate.day : PublishDate → Option Nat
  | .Year _ => none
  | .YearMonth _ _ => none
  | .YearMonthDay _ _ d => some d

/-- `PublishDate::from_year_month_day` from `api/date.rs`. Note the source
builds `valid_day_range = 1..(u32::from(days_in_month))`, a half-open range,
and accepts `day` only when that range contains it. -/
def PublishDate.from_year_month_day (year : Int) (month : Month) (day : Nat) :
    Except PublishDateParamError PublishDate :=
  match month.num_days year with
  | some days_in_month =>
      if 1 ≤ day ∧ day < days_in_month then
        .ok (.YearMonthDay year month day)
      else
        .error .InvalidDayForMonth
  | none => .error .OutOfRangeYear

/-- `Ord for PublishDate` from `api/date.rs`: year, then the option-month
match (absent sorts older), then the option-day match. -/
def PublishDate.cmp (a b : PublishDate) : Ordering :=
  ((intCmp a.year b.year).then
    (match a.month, b.month with
      | none, none => .eq
      | none, some _ => .lt
      | some _, none => .gt
      | some m, some m2 => Month.cmp m m2)).then
    (match a.day, b.day with
      | none, none => .eq
      | none, some _ => .lt
      | some _, none => .gt
      | some d, some d2 => natCmp d d2)

/-- A Rust string as seen through the `unicode_segmentation` collaborator:
the list of its grapheme clusters (each cluster a non-empty piece of text).
The embedded code never inspects a string below grapheme granularity. -/
abbrev GStr := List String

/-- The plain text of a grapheme-level string (concatenation of clusters). -/
def joinG (s : GStr) : String := String.join s

/-- `first_grapheme_from_str` from `api/author.rs`: first grapheme cluster. -/
def first_grapheme_from_str (s : GStr) : Option String := s.head?

/-- `NameError` from `api/errors.rs`. -/
inductive NameError where
  | EmptyString
deriving DecidableEq

/-- `PersonName` from `api/author.rs`. -/
inductive PersonName where
  | SurnameOnly (surname : GStr)
  | SurnameAndFirstName (surname : GStr) (first_name : GStr)
  | SurnameAndFirstNameAndMiddleName (surname : GStr) (first_name : GStr) (middle_name : GStr)
deriving DecidableEq

/-- `PersonName::from_first_middle_last`: rejects any empty component
(`str::len() == 0`, i.e. an empty grapheme list). -/
def PersonName.from_first_middle_last (first middle last : GStr) :
    Except NameError PersonName :=
  if first = [] then .error .EmptyString
  else if middle = [] then .error .EmptyString
  else if last = [] then .error .EmptyString
  else .ok (.SurnameAndFirstNameAndMiddleName last first middle)

/-- `PersonName::from_first_last`. -/
def PersonName.from_first_last (first last : GStr) : Except NameError PersonName :=
  if first = [] then .error .EmptyString
  else if last = [] then .error .EmptyString
  else .ok (.SurnameAndFirstName last first)

/-- `PersonName::from_last`. -/
def PersonName.from_last (last : GStr) : Except NameError PersonName :=
  if last = [] then .error .EmptyString
  else .ok (.SurnameOnly last)

/-- `PersonName::as_ieee_string`. The two `panic!()` branches (exactly one of
the first/middle initials extractable) are modelled by `none`. -/
def PersonName.as_ieee_string : PersonName → Option String
  | .SurnameOnly surname => some (joinG surname)
  | .SurnameAndFirstName surname first_name =>
      match first_grapheme_from_str first_name with
      | some first_initial => some (first_initial ++ ". " ++ joinG surname)
      | none => some (joinG surname)
  | .SurnameAndFirstNameAndMiddleName surname first_name middle_name =>
      match first_grapheme_from_str first_name, first_grapheme_from_str middle_name with
      | none, none => some (joinG surname)
      | none, some _ => none
      | some _, none => none
      | some first_initial, some middle_initial =>
          some (first_initial ++ ". " ++ middle_initial ++ ". " ++ joinG surname)

/-- `PersonName::as_apa_string`, with the same `panic!()` modelling. -/
def PersonName.as_apa_string : PersonName → Option String
  | .SurnameOnly surname => some (joinG surname)
  | .SurnameAndFirstName surname first_name =>
      match first_grapheme_from_str first_name with
      | some first_initial => some (joinG surname ++ ", " ++ first_initial ++ ".")
      | none => some (joinG surname)
  | .SurnameAndFirstNameAndMiddleName surname first_name middle_name =>
      match first_grapheme_from_str first_name, first_grapheme_from_str middle_name with
      | none, none => some (joinG surname)
      | none, some _ => none
      | some _, none => none
      | some first_initial, some middle_initial =>
          some (joinG surname ++ ", " ++ first_initial ++ ". " ++ middle_initial ++ ".")

/-- The rendered IEEE name of a person (meaningful when rendering cannot
panic, i.e. `as_ieee_string` is `some`). -/
def ieeeNameOf (p : PersonName) : String := (p.as_ieee_string).getD ""

/-- The rendered APA name of a person (meaningful when rendering cannot
panic, i.e. `as_apa_string` is `some`). -/
def apaNameOf (p : PersonName) : String := (p.as_apa_string).getD ""

/-- `IEEE_ACADEMIC_ET_AL_CUTOFF` from `api/author.rs`. -/
def IEEE_ACADEMIC_ET_AL_CUTOFF : Nat := 6

/-- `APA_GENERIC_ET_AL_CUTOFF` from `api/author.rs`. -/
def APA_GENERIC_ET_AL_CUTOFF : Nat := 5

/-- `AcademicAuthor` from `api/author.rs`. -/
inductive AcademicAuthor where
  | Persons (persons : List PersonName)
  | Organization (name : String)

/-- `GenericAuthor` from `api/author.rs`. -/
inductive GenericAuthor where
  | Persons (persons : List PersonName)
  | Organization (name : String)

/-- `AcademicAuthor::as_ieee_string`. Outer `Option` models panic
propagation from person rendering; the inner `Option` is the functions own
`Option<String>` result (`none` = empty author list, component omitted). -/
def AcademicAuthor.as_ieee_string : AcademicAuthor → Option (Option String)
  | .Organization name => some (some (name ++ ","))
  | .Persons persons =>
    match persons with
    | [] => some none
    | [first] => do
        let f ← first.as_ieee_string
        pure (some (f ++ ","))
    | [first, second] => do
        let f ← first.as_ieee_string
        let s ← second.as_ieee_string
        pure (some (f ++ " and " ++ s ++ ","))
    | p1 :: p2 :: p3 :: rest =>
        let all := p1 :: p2 :: p3 :: rest
        if all.length > IEEE_ACADEMIC_ET_AL_CUTOFF then do
          let f ← p1.as_ieee_string
          pure (some (f ++ " et al.,"))
        else do
          let last_person ← (all.getLast (by simp [all])).as_ieee_string
          let persons_except_last ← all.dropLast.mapM PersonName.as_ieee_string
          pure (some (String.intercalate ", " persons_except_last ++ ", and " ++ last_person ++ ","))

/-- `AcademicAuthor::as_apa_string`. -/
def AcademicAuthor.as_apa_string : AcademicAuthor → Option (Option String)
  | .Organization name => some (some name)
  | .Persons persons =>
    match persons with
    | [] => some none
    | [first] => do
        let f ← first.as_apa_string
        pure (some f)
    | [first, second] => do
        let f ← first.as_apa_string
        let s ← second.as_apa_string
        pure (some (f ++ " & " ++ s))
    | p1 :: _ :: _ :: _ => do
        let f ← p1.as_apa_string
        pure (some (f ++ " et al."))

/-- `GenericAuthor::as_ieee_string`. -/
def GenericAuthor.as_ieee_string : GenericAuthor → Option (Option String)
  | .Organization name => some (some (name ++ ","))
  | .Persons persons =>
    match persons with
    | [] => some none
    | [first] => do
        let f ← first.as_ieee_string
        pure (some f)
    | [first, second] => do
        let f ← first.as_ieee_string
        let s ← second.as_ieee_string
        pure (some (f ++ " and " ++ s))
    | p1 :: p2 :: p3 :: rest =>
        let all := p1 :: p2 :: p3 :: rest
        if all.length > IEEE_ACADEMIC_ET_AL_CUTOFF then do
          let f ← p1.as_ieee_string
          pure (some (f ++ " et al."))
        else do
          let last_person ← (all.getLast (by simp [all])).as_ieee_string
          let persons_except_last ← all.dropLast.mapM PersonName.as_ieee_string
          pure (some (String.intercalate ", " persons_except_last ++ ", and " ++ last_person))

/-- `GenericAuthor::as_apa_string`. Note the source: two persons are joined
with a comma before the ampersand; for three or more persons the branch with
more than `APA_GENERIC_ET_AL_CUTOFF` persons renders the persons verbatim
using their IEEE single-name renderings, while the branch with at most the
cutoff renders the first person followed by an et-al marker. -/
def GenericAuthor.as_apa_string : GenericAuthor → Option (Option String)
  | .Organization name => some (some name)
  | .Persons persons =>
    match persons with
    | [] => some none
    | [first] => do
        let f ← first.as_apa_string
        pure (some f)
    | [first, second] => do
        let f ← first.as_apa_string
        let s ← second.as_apa_string
        pure (some (f ++ ", & " ++ s))
    | p1 :: p2 :: p3 :: rest =>
        let all := p1 :: p2 :: p3 :: rest
        if all.length > APA_GENERIC_ET_AL_CUTOFF then do
          let last_person ← (all.getLast (by simp [all])).as_ieee_string
          let persons_except_last ← all.dropLast.mapM PersonName.as_ieee_string
          pure (some (String.intercalate ", " persons_except_last ++ ", & " ++ last_person))
        else do
          let f ← p1.as_apa_string
          pure (some (f ++ " et al."))

/-- Left typographic quotation mark, value as in `api/title.rs`
(the `crate::unicode` module itself is not under `src/`). -/
def LEFT_QUOTE : Char := '“'

/-- Right typographic quotation mark, value as in `api/title.rs`. -/
def RIGHT_QUOTE : Char := '”'

/-- Modelled from the spec: the `EMDASH` constant of the missing
`crate::unicode` module, the separator between volume-range bounds
(section 4.4 of the spec). -/
def EMDASH : Char := '—'

/-- Ordinal rendering of a number, as produced by the `ordinal` crate
collaborator (`to_ordinal_string`): 1st, 2nd, 3rd, 4th, ..., 11th-13th th. -/
def toOrdinalString (n : Nat) : String :=
  let suffix :=
    if n % 100 = 11 ∨ n % 100 = 12 ∨ n % 100 = 13 then "th"
    else if n % 10 = 1 then "st"
    else if n % 10 = 2 then "nd"
    else if n % 10 = 3 then "rd"
    else "th"
  toString n ++ suffix

/-- `SemVer` from `api/media/version.rs`. -/
inductive SemVer where
  | Major (major : Nat)
  | MajorMinor (major : Nat) (minor : Nat)
  | MajorMinorPatch (major : Nat) (minor : Nat) (patch : Nat)

/-- `Display for SemVer`. -/
def SemVer.toDisplayString : SemVer → String
  | .Major major => toString major
  | .MajorMinor major minor => toString major ++ "." ++ toString minor
  | .MajorMinorPatch major minor patch =>
      toString major ++ "." ++ toString minor ++ "." ++ toString patch

/-- `GenericMediaVersion` from `api/media/version.rs`. -/
inductive GenericMediaVersion where
  | DigitalEdition (number : Nat)
  | Edition (number : Nat)
  | SemVer (sem_ver : SemVer)
  | Volume (number : Nat)
  | VolumeRange (start : Nat) (end_ : Nat)

/-- `GenericMediaVersion::as_ieee_string`. -/
def GenericMediaVersion.as_ieee_string : GenericMediaVersion → String
  | .DigitalEdition number => toOrdinalString number ++ " digital ed."
  | .Edition number => toOrdinalString number ++ " ed."
  | .SemVer sem_ver => "v" ++ sem_ver.toDisplayString
  | .Volume number => "vol. " ++ toString number
  | .VolumeRange start end_ =>
      "vols. " ++ toString start ++ EMDASH.toString ++ toString end_

/-- `PageRange` from `api/page_range.rs` (field `end` renamed: Lean keyword). -/
structure PageRange where
  start : Nat
  end_ : Nat

/-- `CommonCitationData` from `api/media/common.rs`. -/
structure CommonCitationData where
  id : String
  published : Option PublishDate

/-- `Book` from `api/media/book.rs`. -/
structure Book where
  common_data : CommonCitationData
  author : GenericAuthor
  title : String
  chapter : Option String
  version : Option GenericMediaVersion
  doi : Option String
  pages : Option PageRange

/-- Modelled from the spec: `Book::title_as_apa_string` is called from
`api/citation.rs` but its definition is not under `src/`; per the section 4.5
field order and the section 8 scenario strings, the title contributes itself
followed by a period. -/
def Book.title_as_apa_string (b : Book) : String := b.title ++ "."

/-- Modelled from the spec: `Book::title_as_ieee_string`, likewise missing
from `src/`; the section 8 IEEE scenario shows the bare title followed by a
period. -/
def Book.title_as_ieee_string (b : Book) : String := b.title ++ "."

/-- The publish-date fragment of `IeeeFormatting for Book::citation_string`
(`api/media/book.rs` lines 56-74): the match on `(month(), day())` whose
`(None, Some(_))` arm is `panic!()` (modelled by `none`). The same match
appears in `Citation::format_ieee` (`api/citation.rs` lines 115-131). -/
def bookIeeePublishedPart : Option PublishDate → Option String
  | none => some ""
  | some publish_date =>
    match publish_date.month, publish_date.day with
    | none, none => some (" " ++ toString publish_date.year ++ ".")
    | none, some _ => none
    | some month, none =>
        some (" " ++ ieee_abbreviated_month_name month ++ ", " ++ toString publish_date.year ++ ".")
    | some month, some day =>
        some (" " ++ ieee_abbreviated_month_name month ++ " " ++ toString day ++ ", " ++
          toString publish_date.year ++ ".")

/-- `IeeeFormatting for Book::citation_string` from `api/media/book.rs`.
`none` models a panic (from author rendering or the date match). -/
def Book.citation_string_ieee (b : Book) : Option String := do
  let maybe_authors ← b.author.as_ieee_string
  let authors_editors :=
    match maybe_authors with
    | some authors => authors ++ " "
    | none => ""
  let title_version :=
    match b.chapter, b.version with
    | none, none => b.title ++ "."
    | none, some version => b.title ++ ", " ++ version.as_ieee_string
    | some chapter, none =>
        LEFT_QUOTE.toString ++ chapter ++ "," ++ RIGHT_QUOTE.toString ++ " in " ++ b.title ++ "."
    | some chapter, some version =>
        LEFT_QUOTE.toString ++ chapter ++ "," ++ RIGHT_QUOTE.toString ++ " in " ++ b.title ++
          ", " ++ version.as_ieee_string
  let published ← bookIeeePublishedPart b.common_data.published
  pure (authors_editors ++ title_version ++ published)

/-- An instant, standing in for `chrono::DateTime<Utc>` (opaque payload of
media variants whose formatting is unimplemented in the source). -/
structure DateTimeUtc where
  timestamp : Int

/-- `AccessDate` from `api/date.rs` (payload only; its formatting is not
reached by any embedded claim). -/
structure AccessDate where
  accessed : DateTimeUtc

/-- `ConferencePaperOnline` from `api/media/conference_paper.rs`. -/
structure ConferencePaperOnline where
  common_data : CommonCitationData
  title : String
  venue : Option String
  volume : Option String
  number : Option String
  conference_name : String
  conference_date : DateTimeUtc

/-- `ConferenceProceedingsOnline` from `api/media/conference_paper.rs`. -/
structure ConferenceProceedingsOnline where
  common_data : CommonCitationData
  title : String
  venue : Option String
  volume : Option String
  number : Option String
  conference_name : String
  conference_date : DateTimeUtc

/-- `OnlineManualAvailability` from `api/media/online_manual.rs`. -/
inductive OnlineManualAvailability where
  | NotAvailable
  | DOI (s : String)
  | URL (s : String)
  | LibraryDatabaseProvider (s : String)

/-- `OnlineManual` from `api/media/online_manual.rs`. -/
structure OnlineManual where
  common_data : CommonCitationData
  author : GenericAuthor
  title : String
  version : Option GenericMediaVersion
  available_at : OnlineManualAvailability
  accessed : AccessDate

/-- `OnlineVideo` from `api/media/online_video.rs`. -/
inductive OnlineVideo where
  | Generic (common_data : CommonCitationData) (title : String)
      (url : Option String) (accessed : AccessDate)
  | YouTube (common_data : CommonCitationData) (title : String)
      (url : Option String) (channel : String) (accessed : AccessDate)

/-- `Citation` from `api/citation.rs`: the closed media-kind dispatcher. -/
inductive Citation where
  | Book (book : Book)
  | ConferencePaperOnline (conference_paper_online : ConferencePaperOnline)
  | ConferenceProceedingsOnline (conference_proceedings_online : ConferenceProceedingsOnline)
  | OnlineManual (online_manual : OnlineManual)
  | OnlineVideo (online_video : OnlineVideo)

/-- `Citation::format_apa` from `api/citation.rs`: only the `Book` arm is
implemented; the other four arms are `todo!()`, a panic, modelled by `none`.
`none` also propagates a panic from the author rendering. -/
def Citation.format_apa : Citation → Option String
  | .Book book =>
    match book.author.as_apa_string with
    | none => none
    | some maybe_apa_authors =>
      let parts : List String :=
        match maybe_apa_authors with
        | some apa_authors => [apa_authors]
        | none => []
      let parts :=
        match book.common_data.published with
        | some datetime_published => parts ++ ["(" ++ toString datetime_published.year ++ ")."]
        | none => parts
      let parts := parts ++ [book.title_as_apa_string]
      some (String.intercalate " " parts)
  | .ConferencePaperOnline _ => none
  | .ConferenceProceedingsOnline _ => none
  | .OnlineManual _ => none
  | .OnlineVideo _ => none

/-- `Citation::format_ieee` from `api/citation.rs`: only the `Book` arm is
implemented (with the `(month absent, day present)` panic arm in its date
match); the other four arms are `todo!()`. `none` models any panic. -/
def Citation.format_ieee : Citation → Option String
  | .Book book =>
    match book.author.as_ieee_string with
    | none => none
    | some maybe_ieee_authors =>
      let parts : List String :=
        match maybe_ieee_authors with
        | some ieee_authors => [ieee_authors]
        | none => []
      let parts := parts ++ [book.title_as_ieee_string]
      match book.common_data.published with
      | none => some (String.intercalate " " parts)
      | some publish_date =>
        match publish_date.month, publish_date.day with
        | none, none => some (String.intercalate " " (parts ++ [toString publish_date.year ++ "."]))
        | none, some _ => none
        | some month, none =>
            some (String.intercalate " " (parts ++
              [ieee_abbreviated_month_name month ++ ", " ++ toString publish_date.year ++ "."]))
        | some month, some day =>
            some (String.intercalate " " (parts ++
              [ieee_abbreviated_month_name month ++ " " ++ toString day ++ ", " ++
                toString publish_date.year ++ "."]))
  | .ConferencePaperOnline _ => none
  | .ConferenceProceedingsOnline _ => none
  | .OnlineManual _ => none
  | .OnlineVideo _ => none

namespace Lib

/-- `CitationError` from the crate root `lib.rs`. -/
inductive CitationError where
  | InvalidFormat (s : String)
  | MissingField (s : String)
  | ParseError (s : String)
deriving DecidableEq

/-- `Citation` from the crate root `lib.rs` (year is `Option<u16>`). -/
structure Citation where
  id : String
  title : String
  authors : List String
  year : Option Nat
  venue : Option String
  volume : Option String
  number : Option String
  pages : Option String
  doi : Option String
  url : Option String
deriving DecidableEq

/-- A single-quote character as a string (used in the duplicate-id message). -/
def squote : String := "\x27"

/-- `Citation::validate` from `lib.rs`. -/
def Citation.validate (c : Citation) : Except CitationError Unit :=
  if c.id = "" then .error (.MissingField "id")
  else if c.title = "" then .error (.MissingField "title")
  else if c.authors = [] then .error (.MissingField "authors")
  else .ok ()

/-- The error value produced by `Bibliography::add_citation` on a duplicate
identifier. -/
def duplicateIdError (id : String) : CitationError :=
  .InvalidFormat ("Citation with ID " ++ squote ++ id ++ squote ++ " already exists")

/-- `Bibliography` from `lib.rs`. -/
structure Bibliography where
  citations : List Citation
deriving DecidableEq

/-- `Bibliography::add_citation` from `lib.rs`: validate, reject a held
duplicate id, else push. The pair returns the error (if any) together with
the resulting collection (unchanged on every failure, since the source
returns before `push`). -/
def Bibliography.add_citation (bib : Bibliography) (citation : Citation) :
    Option CitationError × Bibliography :=
  match citation.validate with
  | .error e => (some e, bib)
  | .ok _ =>
    if bib.citations.any (fun c => c.id == citation.id) then
      (some (duplicateIdError citation.id), bib)
    else
      (none, ⟨bib.citations ++ [citation]⟩)

/-- The sort key of `Bibliography::sort_by_year`: `year.unwrap_or(0)`. -/
def yearKey (c : Citation) : Nat := c.year.getD 0

/-- `Bibliography::sort_by_year` from `lib.rs`: a stable sort (Rust
`sort_by` is stable) under the comparator `b.year.unwrap_or(0)
.cmp(&a.year.unwrap_or(0))`, i.e. descending by `yearKey`; embedded as the
stable `List.mergeSort` with the matching non-strict order. -/
def Bibliography.sort_by_year (bib : Bibliography) : Bibliography :=
  ⟨bib.citations.mergeSort (fun a b => decide (yearKey b ≤ yearKey a))⟩

end Lib

lemma intCmp_lt_iff (a b : Int) : intCmp a b = .lt ↔ a < b := by
  unfold intCmp
  by_cases h1 : a < b
  · simp [h1]
  · by_cases h2 : a = b <;> simp [h1, h2]

lemma intCmp_eq_iff (a b : Int) : intCmp a b = .eq ↔ a = b := by
  unfold intCmp
  by_cases h1 : a < b
  · simp [h1]; omega
  · by_cases h2 : a = b <;> simp [h1, h2]

lemma intCmp_gt_iff (a b : Int) : intCmp a b = .gt ↔ b < a := by
  unfold intCmp
  by_cases h1 : a < b
  · simp [h1]; omega
  · by_cases h2 : a = b
    · simp [h1, h2]
    · simp [h1, h2]; omega

lemma natCmp_lt_iff (a b : Nat) : natCmp a b = .lt ↔ a < b := by
  unfold natCmp
  by_cases h1 : a < b
  · simp [h1]
  · by_cases h2 : a = b <;> simp [h1, h2]

lemma natCmp_eq_iff (a b : Nat) : natCmp a b = .eq ↔ a = b := by
  unfold natCmp
  by_cases h1 : a < b
  · simp [h1]; omega
  · by_cases h2 : a = b <;> simp [h1, h2]

lemma natCmp_gt_iff (a b : Nat) : natCmp a b = .gt ↔ b < a := by
  unfold natCmp
  by_cases h1 : a < b
  · simp [h1]; omega
  · by_cases h2 : a = b
    · simp [h1, h2]
    · simp [h1, h2]; omega

/-- Rank of an optional month in the `Ord for PublishDate` tie-break: an
absent month sorts below every present month. -/
def monthRank : Option Month → Nat
  | none => 0
  | some m => m.number

/-- Rank of an optional day: an absent day sorts below every present day. -/
def dayRank : Option Nat → Nat
  | none => 0
  | some d => d + 1

lemma month_number_pos (m : Month) : 0 < m.number := by
  cases m <;> decide

lemma month_number_inj (m m2 : Month) (h : m.number = m2.number) : m = m2 := by
  cases m <;> cases m2 <;> simp_all [Month.number]

lemma natCmp_zero_number (m : Month) : natCmp 0 m.number = .lt := by
  cases m <;> decide

lemma natCmp_number_zero (m : Month) : natCmp m.number 0 = .gt := by
  cases m <;> decide

lemma natCmp_zero_zero : natCmp 0 0 = .eq := by decide

lemma natCmp_succ_succ (d e : Nat) : natCmp (d + 1) (e + 1) = natCmp d e := by
  rcases Nat.lt_trichotomy d e with h | h | h
  · simp [natCmp, h, Nat.succ_lt_succ h]
  · subst h; simp [natCmp]
  · have h2 : ¬ d < e := by omega
    have h3 : ¬ d + 1 < e + 1 := by omega
    have h4 : d ≠ e := by omega
    have h5 : d + 1 ≠ e + 1 := by omega
    simp [natCmp, h2, h3, h4, h5]

lemma natCmp_zero_succ (e : Nat) : natCmp 0 (e + 1) = .lt := by
  simp [natCmp]

lemma natCmp_succ_zero (d : Nat) : natCmp (d + 1) 0 = .gt := by
  have h3 : ¬ d + 1 < 0 := by omega
  have h5 : d + 1 ≠ 0 := by omega
  simp [natCmp, h3, h5]

/-- The `Ord for PublishDate` comparison equals the lexicographic comparison
of the numeric key (year, month rank, day rank). -/
lemma publishDate_cmp_eq (a b : PublishDate) :
    PublishDate.cmp a b =
      ((intCmp a.year b.year).then (natCmp (monthRank a.month) (monthRank b.month))).then
        (natCmp (dayRank a.day) (dayRank b.day)) := by
  cases a <;> cases b <;>
    simp [PublishDate.cmp, PublishDate.year, PublishDate.month, PublishDate.day, Month.cmp,
      monthRank, dayRank, natCmp_zero_number, natCmp_number_zero, natCmp_zero_zero,
      natCmp_succ_succ, natCmp_zero_succ, natCmp_succ_zero]

lemma then_eq_lt (o1 o2 : Ordering) :
    o1.then o2 = .lt ↔ (o1 = .lt ∨ (o1 = .eq ∧ o2 = .lt)) := by
  cases o1 <;> simp [Ordering.then]

lemma then_eq_eq (o1 o2 : Ordering) :
    o1.then o2 = .eq ↔ (o1 = .eq ∧ o2 = .eq) := by
  cases o1 <;> simp [Ordering.then]

lemma then_eq_gt (o1 o2 : Ordering) :
    o1.then o2 = .gt ↔ (o1 = .gt ∨ (o1 = .eq ∧ o2 = .gt)) := by
  cases o1 <;> simp [Ordering.then]

lemma publishDate_cmp_lt_iff (a b : PublishDate) :
    PublishDate.cmp a b = .lt ↔
      (a.year < b.year ∨ (a.year = b.year ∧
        (monthRank a.month < monthRank b.month ∨ (monthRank a.month = monthRank b.month ∧
          dayRank a.day < dayRank b.day)))) := by
  rw [publishDate_cmp_eq]
  simp only [then_eq_lt, then_eq_eq, intCmp_lt_iff, intCmp_eq_iff, natCmp_lt_iff, natCmp_eq_iff]
  tauto

lemma publishDate_cmp_eq_iff (a b : PublishDate) :
    PublishDate.cmp a b = .eq ↔
      (a.year = b.year ∧ monthRank a.month = monthRank b.month ∧
        dayRank a.day = dayRank b.day) := by
  rw [publishDate_cmp_eq]
  simp only [then_eq_eq, intCmp_eq_iff, natCmp_eq_iff]
  tauto

lemma publishDate_cmp_gt_iff (a b : PublishDate) :
    PublishDate.cmp a b = .gt ↔
      (b.year < a.year ∨ (b.year = a.year ∧
        (monthRank b.month < monthRank a.month ∨ (monthRank b.month = monthRank a.month ∧
          dayRank b.day < dayRank a.day)))) := by
  rw [publishDate_cmp_eq]
  simp only [then_eq_gt, then_eq_eq, intCmp_gt_iff, intCmp_eq_iff, natCmp_gt_iff, natCmp_eq_iff]
  tauto

/-- C2: `PublishDate::from_year_month_day` is claimed to succeed exactly for
days from 1 through the number of days of the month inclusive. The source
instead builds the half-open range `1..days_in_month`, so the last valid
calendar day of every month is rejected with `InvalidDayForMonth`: the first
conjunct shows the rejection for every month length the calendar produces,
and the remaining conjuncts evaluate the code at the concrete failing input
January 31, 2024, a day that exists in the Gregorian calendar. -/
theorem c2_last_day_rejected :
    (∀ (year : Int) (month : Month) (days_in_month : Nat),
      month.num_days year = some days_in_month →
      PublishDate.from_year_month_day year month days_in_month =
        .error .InvalidDayForMonth) ∧
    Month.num_days .January 2024 = some 31 ∧
    PublishDate.from_year_month_day 2024 .January 31 = .error .InvalidDayForMonth := by
  refine ⟨?_, by decide, by rfl⟩
  intro y m dim h
  have hlt : ¬ (1 ≤ dim ∧ dim < dim) := by omega
  simp [PublishDate.from_year_month_day, h, hlt]

/-- C2 witness: the general rejection theorem applied at January 2024. -/
theorem c2_last_day_rejected_witness :
    PublishDate.from_year_month_day 2024 .January 31 = .error .InvalidDayForMonth :=
  c2_last_day_rejected.1 2024 .January 31 (by decide)

/-- The numeric key (year, month rank, day rank) determines the date. -/
lemma publishDate_key_inj (a b : PublishDate) (hy : a.year = b.year)
    (hm : monthRank a.month = monthRank b.month) (hd : dayRank a.day = dayRank b.day) :
    a = b := by
  cases a with
  | Year y =>
    cases b with
    | Year y2 =>
      simp only [PublishDate.year] at hy
      rw [hy]
    | YearMonth y2 m2 =>
      exfalso
      have := month_number_pos m2
      simp only [PublishDate.month, monthRank] at hm
      omega
    | YearMonthDay y2 m2 d2 =>
      exfalso
      have := month_number_pos m2
      simp only [PublishDate.month, monthRank] at hm
      omega
  | YearMonth y m =>
    cases b with
    | Year y2 =>
      exfalso
      have := month_number_pos m
      simp only [PublishDate.month, monthRank] at hm
      omega
    | YearMonth y2 m2 =>
      simp only [PublishDate.year] at hy
      simp only [PublishDate.month, monthRank] at hm
      rw [hy, month_number_inj m m2 hm]
    | YearMonthDay y2 m2 d2 =>
      exfalso
      simp only [PublishDate.day, dayRank] at hd
      omega
  | YearMonthDay y m d =>
    cases b with
    | Year y2 =>
      exfalso
      have := month_number_pos m
      simp only [PublishDate.month, monthRank] at hm
      omega
    | YearMonth y2 m2 =>
      exfalso
      simp only [PublishDate.day, dayRank] at hd
      omega
    | YearMonthDay y2 m2 d2 =>
      simp only [PublishDate.year] at hy
      simp only [PublishDate.month, monthRank] at hm
      simp only [PublishDate.day, dayRank] at hd
      rw [hy, month_number_inj m m2 hm, show d = d2 by omega]

/-- C7: the `Ord for PublishDate` comparison is a total order: it is
transitive, it returns `eq` exactly on equal dates, `lt` and `gt` are each
the mirror of the other, and the two claimed concrete inequalities hold:
`Year 2023` sorts before `YearMonth 2023 February`, which sorts before
`YearMonthDay 2023 February 1`. -/
theorem c7_publish_date_total_order :
    (∀ a b c : PublishDate, a.cmp b = .lt → b.cmp c = .lt → a.cmp c = .lt) ∧
    (∀ a b : PublishDate, a.cmp b = .eq ↔ a = b) ∧
    (∀ a b : PublishDate, a.cmp b = .lt ↔ b.cmp a = .gt) ∧
    (PublishDate.Year 2023).cmp (.YearMonth 2023 .February) = .lt ∧
    (PublishDate.YearMonth 2023 .February).cmp (.YearMonthDay 2023 .February 1) = .lt := by
  refine ⟨?_, ?_, ?_, by decide, by decide⟩
  · intro a b c h1 h2
    rw [publishDate_cmp_lt_iff] at h1 h2 ⊢
    omega
  · intro a b
    rw [publishDate_cmp_eq_iff]
    constructor
    · rintro ⟨hy, hm, hd⟩
      exact publishDate_key_inj a b hy hm hd
    · rintro rfl
      exact ⟨rfl, rfl, rfl⟩
  · intro a b
    rw [publishDate_cmp_lt_iff, publishDate_cmp_gt_iff]

/-- C7 witness: transitivity applied at three concrete dates. -/
theorem c7_publish_date_total_order_witness :
    (PublishDate.Year 2022).cmp (.YearMonthDay 2023 .February 1) = .lt :=
  c7_publish_date_total_order.1 (.Year 2022) (.YearMonth 2023 .February)
    (.YearMonthDay 2023 .February 1) (by decide) (by decide)

lemma opt_eq_some_getD (o : Option String) (h : o.isSome) : o = some (o.getD "") := by
  cases o with
  | none => simp at h
  | some v => rfl

/-- C9: every `PersonName` built through the public constructors (which
succeed exactly on non-empty components) renders without reaching the
`panic!()` branches of `as_ieee_string` / `as_apa_string`, and each present
first/middle component contributes an initial equal to its first grapheme
cluster. The embedding works at grapheme granularity (strings are their
grapheme-cluster lists, per the `unicode_segmentation` collaborator), so the
initial is by construction the first grapheme cluster rather than a byte or
codepoint. -/
theorem c9_constructed_names_render_safely :
    (∀ (last : GStr) (p : PersonName), PersonName.from_last last = .ok p →
      p.as_ieee_string = some (joinG last) ∧ p.as_apa_string = some (joinG last)) ∧
    (∀ (first last : GStr) (p : PersonName), PersonName.from_first_last first last = .ok p →
      ∃ fi, first_grapheme_from_str first = some fi ∧
        p.as_ieee_string = some (fi ++ ". " ++ joinG last) ∧
        p.as_apa_string = some (joinG last ++ ", " ++ fi ++ ".")) ∧
    (∀ (first middle last : GStr) (p : PersonName),
      PersonName.from_first_middle_last first middle last = .ok p →
      ∃ fi mi, first_grapheme_from_str first = some fi ∧
        first_grapheme_from_str middle = some mi ∧
        p.as_ieee_string = some (fi ++ ". " ++ mi ++ ". " ++ joinG last) ∧
        p.as_apa_string = some (joinG last ++ ", " ++ fi ++ ". " ++ mi ++ ".")) := by
  refine ⟨?_, ?_, ?_⟩
  · intro last p h
    by_cases hl : last = []
    · simp [PersonName.from_last, hl] at h
    · simp [PersonName.from_last, hl] at h
      subst h
      exact ⟨rfl, rfl⟩
  · intro first last p h
    by_cases hf : first = []
    · simp [PersonName.from_first_last, hf] at h
    · by_cases hl : last = []
      · simp [PersonName.from_first_last, hf, hl] at h
      · simp [PersonName.from_first_last, hf, hl] at h
        subst h
        cases first with
        | nil => exact absurd rfl hf
        | cons fh ft =>
          exact ⟨fh, rfl, rfl, rfl⟩
  · intro first middle last p h
    by_cases hf : first = []
    · simp [PersonName.from_first_middle_last, hf] at h
    · by_cases hm : middle = []
      · simp [PersonName.from_first_middle_last, hf, hm] at h
      · by_cases hl : last = []
        · simp [PersonName.from_first_middle_last, hf, hm, hl] at h
        · simp [PersonName.from_first_middle_last, hf, hm, hl] at h
          subst h
          cases first with
          | nil => exact absurd rfl hf
          | cons fh ft =>
            cases middle with
            | nil => exact absurd rfl hm
            | cons mh mt =>
              exact ⟨fh, mh, rfl, rfl, rfl, rfl⟩

/-- C9 witness: the three-component branch applied at a concrete name. -/
theorem c9_constructed_names_render_safely_witness :
    (PersonName.SurnameAndFirstNameAndMiddleName ["D", "o", "e"] ["J"] ["Q"]).as_ieee_string =
      some "J. Q. Doe" ∧
    (PersonName.SurnameAndFirstNameAndMiddleName ["D", "o", "e"] ["J"] ["Q"]).as_apa_string =
      some "Doe, J. Q." := by
  obtain ⟨fi, mi, hfi, hmi, hieee, hapa⟩ :=
    c9_constructed_names_render_safely.2.2 ["J"] ["Q"] ["D", "o", "e"]
      (.SurnameAndFirstNameAndMiddleName ["D", "o", "e"] ["J"] ["Q"]) rfl
  simp only [first_grapheme_from_str, List.head?, Option.some.injEq] at hfi hmi
  subst hfi
  subst hmi
  exact ⟨hieee, hapa⟩

lemma bookIeeePublishedPart_isSome (o : Option PublishDate) :
    (bookIeeePublishedPart o).isSome := by
  cases o with
  | none => rfl
  | some pd => cases pd <;> simp [bookIeeePublishedPart, PublishDate.month, PublishDate.day]

/-- C10: `PublishDate::day()` returns `Some` only when `PublishDate::month()`
does (the variant encodes exactly the three precisions), and consequently the
`(month absent, day present)` `panic!()` arm of the Book IEEE citation
formatter is unreachable: the date fragment always yields a string, and the
whole `Book` IEEE rendering yields a string whenever the author rendering
does not itself panic. -/
theorem c10_day_some_implies_month_some :
    (∀ pd : PublishDate, (pd.day).isSome → (pd.month).isSome) ∧
    (∀ o : Option PublishDate, (bookIeeePublishedPart o).isSome) ∧
    (∀ b : Book, b.author.as_ieee_string ≠ none → (b.citation_string_ieee).isSome) := by
  refine ⟨?_, bookIeeePublishedPart_isSome, ?_⟩
  · intro pd h
    cases pd <;> simp_all [PublishDate.month, PublishDate.day]
  · intro b h
    obtain ⟨x, hx⟩ := Option.ne_none_iff_exists.mp h
    obtain ⟨s, hs⟩ := Option.isSome_iff_exists.mp (bookIeeePublishedPart_isSome b.common_data.published)
    simp [Book.citation_string_ieee, ← hx, hs]

/-- C10 witness: the accessor implication and the formatter totality at
concrete inputs. -/
theorem c10_day_some_implies_month_some_witness :
    ((PublishDate.YearMonthDay 2023 .February 1).month).isSome ∧
    (Book.citation_string_ieee
      ⟨⟨"id1", some (.YearMonthDay 2023 .February 1)⟩, .Organization "Org", "T",
        none, none, none, none⟩).isSome := by
  refine ⟨c10_day_some_implies_month_some.1 (.YearMonthDay 2023 .February 1) (by decide), ?_⟩
  exact c10_day_some_implies_month_some.2.2
    ⟨⟨"id1", some (.YearMonthDay 2023 .February 1)⟩, .Organization "Org", "T",
      none, none, none, none⟩
    (by simp [GenericAuthor.as_ieee_string])

/-- C8 counterexample: the claim says the organization name is returned
unmodified for both styles, but the IEEE author-list rendering appends a
comma to the organization name (asserted by the repository test
`test_format_org_academic_author_ieee` as well). -/
theorem c8_counterexample :
    GenericAuthor.as_ieee_string (.Organization "The Corporation") =
      some (some "The Corporation,") ∧
    ("The Corporation," : String) ≠ "The Corporation" := by
  exact ⟨rfl, by decide⟩

/-- C8 (amended): for every organization name, the APA author-list renderings
return the name unmodified as a present result, while the IEEE author-list
renderings return the name with a trailing comma appended (both for
`GenericAuthor` and `AcademicAuthor`). -/
theorem c8_organization_rendering (name : String) :
    GenericAuthor.as_apa_string (.Organization name) = some (some name) ∧
    AcademicAuthor.as_apa_string (.Organization name) = some (some name) ∧
    GenericAuthor.as_ieee_string (.Organization name) = some (some (name ++ ",")) ∧
    AcademicAuthor.as_ieee_string (.Organization name) = some (some (name ++ ",")) :=
  ⟨rfl, rfl, rfl, rfl⟩

lemma mapM_ieee_eq_map (xs : List PersonName) (h : ∀ p ∈ xs, (p.as_ieee_string).isSome) :
    xs.mapM PersonName.as_ieee_string = some (xs.map ieeeNameOf) := by
  induction xs with
  | nil => rfl
  | cons x t ih =>
    have hx : x.as_ieee_string = some (ieeeNameOf x) :=
      opt_eq_some_getD _ (h x (List.mem_cons_self x t))
    have ht : ∀ p ∈ t, (p.as_ieee_string).isSome := fun p hp => h p (List.mem_cons_of_mem _ hp)
    rw [List.mapM_cons, hx, ih ht]
    rfl

/-- Expected IEEE author-list output, written from the words of claim C4:
two persons joined by a bare conjunction, three through six persons listed
verbatim comma-joined with the final name preceded by a comma-and, more than
six persons truncated to the first IEEE name plus an et-al marker. -/
def ieeeListSpec : List PersonName → Option String
  | [] => none
  | [p] => some (ieeeNameOf p)
  | [a, b] => some (ieeeNameOf a ++ " and " ++ ieeeNameOf b)
  | a :: b :: c :: rest =>
    if (a :: b :: c :: rest).length > 6 then
      some (ieeeNameOf a ++ " et al.")
    else
      some (String.intercalate ", " ((a :: b :: c :: rest).dropLast.map ieeeNameOf) ++
        ", and " ++ ieeeNameOf ((a :: b :: c :: rest).getLast (by simp)))

/-- Expected APA author-list output, written from the words of claim C3:
one person bare, two persons joined by a bare ampersand (no comma), more
than two persons truncated to the first APA name plus an et-al marker. -/
def apaListSpec : List PersonName → Option String
  | [] => none
  | [p] => some (apaNameOf p)
  | [a, b] => some (apaNameOf a ++ " & " ++ apaNameOf b)
  | a :: _ :: _ :: _ => some (apaNameOf a ++ " et al.")

/-- What `GenericAuthor::as_apa_string` actually produces on person lists
(the amended form of claim C3 for the generic renderer): a comma before the
ampersand for two persons, the et-al truncation only for three through five
persons, and a verbatim list rendered with IEEE single-name forms beyond
five persons. -/
def genericApaListSpec : List PersonName → Option String
  | [] => none
  | [p] => some (apaNameOf p)
  | [a, b] => some (apaNameOf a ++ ", & " ++ apaNameOf b)
  | a :: b :: c :: rest =>
    if (a :: b :: c :: rest).length > 5 then
      some (String.intercalate ", " ((a :: b :: c :: rest).dropLast.map ieeeNameOf) ++
        ", & " ++ ieeeNameOf ((a :: b :: c :: rest).getLast (by simp)))
    else
      some (apaNameOf a ++ " et al.")

/-- C4 counterexample: the claim says two persons render as the bare
conjunction of the two names, but `AcademicAuthor::as_ieee_string` appends a
trailing comma. -/
theorem c4_counterexample :
    AcademicAuthor.as_ieee_string (.Persons [.SurnameOnly ["A"], .SurnameOnly ["B"]]) =
      some (some "A and B,") ∧
    ("A and B," : String) ≠ "A and B" := by
  exact ⟨rfl, by decide⟩

/-- C4 (amended): for every person list whose members render without
panicking, `GenericAuthor::as_ieee_string` produces exactly the claimed
strings (bare two-person conjunction, verbatim Oxford-comma list for three
through six persons, first name plus et-al beyond six), while
`AcademicAuthor::as_ieee_string` produces the same strings with one trailing
comma appended. -/
theorem c4_ieee_author_lists (ps : List PersonName)
    (h : ∀ p ∈ ps, (p.as_ieee_string).isSome) :
    GenericAuthor.as_ieee_string (.Persons ps) = some (ieeeListSpec ps) ∧
    AcademicAuthor.as_ieee_string (.Persons ps) = some ((ieeeListSpec ps).map (fun s => s ++ ",")) := by
  match ps with
  | [] => exact ⟨rfl, rfl⟩
  | [p] =>
    have hp : p.as_ieee_string = some (ieeeNameOf p) :=
      opt_eq_some_getD _ (h p (by simp))
    constructor
    · simp [GenericAuthor.as_ieee_string, ieeeListSpec, hp]
    · simp [AcademicAuthor.as_ieee_string, ieeeListSpec, hp]
  | [a, b] =>
    have ha : a.as_ieee_string = some (ieeeNameOf a) :=
      opt_eq_some_getD _ (h a (by simp))
    have hb : b.as_ieee_string = some (ieeeNameOf b) :=
      opt_eq_some_getD _ (h b (by simp))
    constructor
    · simp [GenericAuthor.as_ieee_string, ieeeListSpec, ha, hb]
    · simp [AcademicAuthor.as_ieee_string, ieeeListSpec, ha, hb]
  | a :: b :: c :: rest =>
    have ha : a.as_ieee_string = some (ieeeNameOf a) :=
      opt_eq_some_getD _ (h a (by simp))
    have hlast : ((a :: b :: c :: rest).getLast (by simp)).as_ieee_string =
        some (ieeeNameOf ((a :: b :: c :: rest).getLast (by simp))) :=
      opt_eq_some_getD _ (h _ (List.getLast_mem _))
    have hdrop : (a :: b :: c :: rest).dropLast.mapM PersonName.as_ieee_string =
        some ((a :: b :: c :: rest).dropLast.map ieeeNameOf) :=
      mapM_ieee_eq_map _ (fun p hp => h p ((List.dropLast_sublist _).subset hp))
    by_cases hlen : (a :: b :: c :: rest).length > 6
    · constructor
      · simp only [GenericAuthor.as_ieee_string, ieeeListSpec, IEEE_ACADEMIC_ET_AL_CUTOFF]
        rw [if_pos hlen, if_pos hlen, ha]
        rfl
      · simp only [AcademicAuthor.as_ieee_string, ieeeListSpec, IEEE_ACADEMIC_ET_AL_CUTOFF]
        rw [if_pos hlen, if_pos hlen, ha]
        show some (some (ieeeNameOf a ++ " et al.,")) =
          some (some ((ieeeNameOf a ++ " et al.") ++ ","))
        rw [String.append_assoc]
        rfl
    · constructor
      · simp only [GenericAuthor.as_ieee_string, ieeeListSpec, IEEE_ACADEMIC_ET_AL_CUTOFF]
        rw [if_neg hlen, if_neg hlen, hlast, hdrop]
        rfl
      · simp only [AcademicAuthor.as_ieee_string, ieeeListSpec, IEEE_ACADEMIC_ET_AL_CUTOFF]
        rw [if_neg hlen, if_neg hlen, hlast, hdrop]
        rfl

/-- C4 witness: the amended theorem applied to a concrete seven-person list
(the et-al branch) with the hypothesis discharged by evaluation. -/
theorem c4_ieee_author_lists_witness :
    GenericAuthor.as_ieee_string (.Persons [.SurnameOnly ["A"], .SurnameOnly ["B"],
      .SurnameOnly ["C"], .SurnameOnly ["D"], .SurnameOnly ["E"], .SurnameOnly ["F"],
      .SurnameOnly ["G"]]) =
      some (ieeeListSpec [.SurnameOnly ["A"], .SurnameOnly ["B"], .SurnameOnly ["C"],
        .SurnameOnly ["D"], .SurnameOnly ["E"], .SurnameOnly ["F"], .SurnameOnly ["G"]]) ∧
    AcademicAuthor.as_ieee_string (.Persons [.SurnameOnly ["A"], .SurnameOnly ["B"],
      .SurnameOnly ["C"], .SurnameOnly ["D"], .SurnameOnly ["E"], .SurnameOnly ["F"],
      .SurnameOnly ["G"]]) =
      some ((ieeeListSpec [.SurnameOnly ["A"], .SurnameOnly ["B"], .SurnameOnly ["C"],
        .SurnameOnly ["D"], .SurnameOnly ["E"], .SurnameOnly ["F"],
        .SurnameOnly ["G"]]).map (fun s => s ++ ",")) :=
  c4_ieee_author_lists [.SurnameOnly ["A"], .SurnameOnly ["B"], .SurnameOnly ["C"],
    .SurnameOnly ["D"], .SurnameOnly ["E"], .SurnameOnly ["F"], .SurnameOnly ["G"]]
    (by decide)

/-- C3 counterexample: the claim says two persons render with no comma
before the ampersand, but `GenericAuthor::as_apa_string` inserts one (the
repository test `test_book_apa_formatting_two_authors` asserts the comma as
well). -/
theorem c3_counterexample :
    GenericAuthor.as_apa_string (.Persons [.SurnameOnly ["A"], .SurnameOnly ["B"]]) =
      some (some "A, & B") ∧
    ("A, & B" : String) ≠ "A & B" := by
  exact ⟨rfl, by decide⟩

/-- C3 (amended): for every person list whose members render without
panicking, `AcademicAuthor::as_apa_string` matches the claim exactly (empty
list absent, one person bare, two persons joined by a bare ampersand, more
than two persons truncated to the first APA name plus et-al), while
`GenericAuthor::as_apa_string` inserts a comma before the ampersand for two
persons, truncates only for three through five persons, and lists more than
five persons verbatim in their IEEE single-name renderings. -/
theorem c3_apa_author_lists (ps : List PersonName)
    (h : ∀ p ∈ ps, (p.as_apa_string).isSome ∧ (p.as_ieee_string).isSome) :
    AcademicAuthor.as_apa_string (.Persons ps) = some (apaListSpec ps) ∧
    GenericAuthor.as_apa_string (.Persons ps) = some (genericApaListSpec ps) := by
  match ps with
  | [] => exact ⟨rfl, rfl⟩
  | [p] =>
    have hp : p.as_apa_string = some (apaNameOf p) :=
      opt_eq_some_getD _ (h p (by simp)).1
    constructor
    · simp [AcademicAuthor.as_apa_string, apaListSpec, hp]
    · simp [GenericAuthor.as_apa_string, genericApaListSpec, hp]
  | [a, b] =>
    have ha : a.as_apa_string = some (apaNameOf a) :=
      opt_eq_some_getD _ (h a (by simp)).1
    have hb : b.as_apa_string = some (apaNameOf b) :=
      opt_eq_some_getD _ (h b (by simp)).1
    constructor
    · simp [AcademicAuthor.as_apa_string, apaListSpec, ha, hb]
    · simp [GenericAuthor.as_apa_string, genericApaListSpec, ha, hb]
  | a :: b :: c :: rest =>
    have ha : a.as_apa_string = some (apaNameOf a) :=
      opt_eq_some_getD _ (h a (by simp)).1
    have hlast : ((a :: b :: c :: rest).getLast (by simp)).as_ieee_string =
        some (ieeeNameOf ((a :: b :: c :: rest).getLast (by simp))) :=
      opt_eq_some_getD _ (h _ (List.getLast_mem _)).2
    have hdrop : (a :: b :: c :: rest).dropLast.mapM PersonName.as_ieee_string =
        some ((a :: b :: c :: rest).dropLast.map ieeeNameOf) :=
      mapM_ieee_eq_map _ (fun p hp => (h p ((List.dropLast_sublist _).subset hp)).2)
    constructor
    · simp [AcademicAuthor.as_apa_string, apaListSpec, ha]
    · by_cases hlen : (a :: b :: c :: rest).length > 5
      · simp only [GenericAuthor.as_apa_string, genericApaListSpec, APA_GENERIC_ET_AL_CUTOFF]
        rw [if_pos hlen, if_pos hlen, hlast, hdrop]
        rfl
      · simp only [GenericAuthor.as_apa_string, genericApaListSpec, APA_GENERIC_ET_AL_CUTOFF]
        rw [if_neg hlen, if_neg hlen, ha]
        rfl

/-- C3 witness: the amended theorem applied to a concrete two-person list,
hypothesis discharged by evaluation. -/
theorem c3_apa_author_lists_witness :
    AcademicAuthor.as_apa_string (.Persons [.SurnameOnly ["A"], .SurnameOnly ["B"]]) =
      some (apaListSpec [.SurnameOnly ["A"], .SurnameOnly ["B"]]) ∧
    GenericAuthor.as_apa_string (.Persons [.SurnameOnly ["A"], .SurnameOnly ["B"]]) =
      some (genericApaListSpec [.SurnameOnly ["A"], .SurnameOnly ["B"]]) :=
  c3_apa_author_lists [.SurnameOnly ["A"], .SurnameOnly ["B"]] (by decide)

/-- C5 counterexample: the claim says `add` appends whenever no held
citation shares the new id, but a citation failing validation (empty title
here) is rejected with a missing-field error even though the bibliography is
empty, and nothing is appended. -/
theorem c5_counterexample :
    Lib.Bibliography.add_citation ⟨[]⟩
        ⟨"x", "", ["A"], none, none, none, none, none, none, none⟩ =
      (some (Lib.CitationError.MissingField "title"), ⟨[]⟩) ∧
    ([] : List Lib.Citation).any
      (fun c0 => c0.id == "x") = false :=
  ⟨rfl, rfl⟩

lemma sortLe_trans (a b c : Lib.Citation)
    (h1 : decide (Lib.yearKey b ≤ Lib.yearKey a) = true)
    (h2 : decide (Lib.yearKey c ≤ Lib.yearKey b) = true) :
    decide (Lib.yearKey c ≤ Lib.yearKey a) = true := by
  simp only [decide_eq_true_eq] at h1 h2 ⊢
  omega

lemma sortLe_total (a b : Lib.Citation) :
    (decide (Lib.yearKey b ≤ Lib.yearKey a) || decide (Lib.yearKey a ≤ Lib.yearKey b)) = true := by
  simp only [Bool.or_eq_true, decide_eq_true_eq]
  omega

lemma sort_by_year_perm (bib : Lib.Bibliography) :
    (bib.sort_by_year).citations.Perm bib.citations :=
  List.mergeSort_perm _ _

lemma sort_by_year_pairwise (bib : Lib.Bibliography) :
    (bib.sort_by_year).citations.Pairwise (fun a b => Lib.yearKey b ≤ Lib.yearKey a) := by
  have h := @List.sorted_mergeSort _ (fun a b => decide (Lib.yearKey b ≤ Lib.yearKey a))
    sortLe_trans sortLe_total bib.citations
  refine h.imp ?_
  intro a b hab
  simpa using hab

lemma sort_by_year_filter (bib : Lib.Bibliography) (p : Lib.Citation → Bool)
    (hp : ∀ a b, p a = true → p b = true → Lib.yearKey b ≤ Lib.yearKey a) :
    (bib.sort_by_year).citations.filter p = bib.citations.filter p := by
  have hsub : (bib.citations.filter p).Sublist bib.citations := List.filter_sublist _
  have hpw : (bib.citations.filter p).Pairwise
      (fun a b => decide (Lib.yearKey b ≤ Lib.yearKey a) = true) := by
    refine List.pairwise_of_forall_mem_list ?_
    intro a hA b hB
    have pa := (List.mem_filter.mp hA).2
    have pb := (List.mem_filter.mp hB).2
    simp only [decide_eq_true_eq]
    exact hp a b pa pb
  have hstable := List.sublist_mergeSort sortLe_trans sortLe_total hpw hsub
  have h1 : (bib.citations.filter p).Sublist ((bib.sort_by_year).citations.filter p) := by
    have h2 := hstable.filter p
    rwa [List.filter_eq_self.mpr (fun a ha => (List.mem_filter.mp ha).2)] at h2
  have hlen : ((bib.sort_by_year).citations.filter p).length = (bib.citations.filter p).length :=
    ((sort_by_year_perm bib).filter p).length_eq
  exact (h1.eq_of_length hlen.symm).symm

/-- C5 (amended): for every bibliography and every citation that passes
`validate` (non-empty id, title and author list), `add_citation` fails with
the duplicate-identifier error exactly when a held citation shares the new
id, and otherwise appends at the end preserving the previous order; for
every citation (valid or not) a failed add leaves the collection unchanged. -/
theorem c5_add_citation_spec (bib : Lib.Bibliography) (c : Lib.Citation) :
    ((Lib.Bibliography.add_citation bib c).1.isSome →
      (Lib.Bibliography.add_citation bib c).2 = bib) ∧
    (c.validate = .ok () →
      ((∃ c0 ∈ bib.citations, c0.id = c.id) →
        Lib.Bibliography.add_citation bib c = (some (Lib.duplicateIdError c.id), bib)) ∧
      ((¬ ∃ c0 ∈ bib.citations, c0.id = c.id) →
        Lib.Bibliography.add_citation bib c = (none, ⟨bib.citations ++ [c]⟩))) := by
  have hex : (bib.citations.any (fun c0 => c0.id == c.id) = true) ↔
      (∃ c0 ∈ bib.citations, c0.id = c.id) := by
    simp [List.any_eq_true]
  cases hv : c.validate with
  | error e =>
    refine ⟨?_, ?_⟩
    · intro _
      simp [Lib.Bibliography.add_citation, hv]
    · intro hok
      simp at hok
  | ok u =>
    cases u
    by_cases hdup : bib.citations.any (fun c0 => c0.id == c.id) = true
    · refine ⟨?_, fun _ => ⟨fun _ => ?_, fun hne => absurd (hex.mp hdup) hne⟩⟩
      · intro _
        simp [Lib.Bibliography.add_citation, hv, hdup]
      · simp [Lib.Bibliography.add_citation, hv, hdup]
    · rw [Bool.not_eq_true] at hdup
      refine ⟨?_, fun _ => ⟨fun hex2 => absurd hex2 ?_, fun _ => ?_⟩⟩
      · intro hfst
        simp [Lib.Bibliography.add_citation, hv, hdup] at hfst
      · intro hex2
        rw [← hex] at hex2
        rw [hdup] at hex2
        simp at hex2
      · simp [Lib.Bibliography.add_citation, hv, hdup]

/-- C5 witness: adding a valid citation to an empty bibliography succeeds
and appends, by the amended theorem with both hypotheses discharged. -/
theorem c5_add_citation_spec_witness :
    Lib.Bibliography.add_citation ⟨[]⟩
        ⟨"x", "T", ["A"], none, none, none, none, none, none, none⟩ =
      (none, ⟨([] : List Lib.Citation) ++
        [⟨"x", "T", ["A"], none, none, none, none, none, none, none⟩]⟩) :=
  ((c5_add_citation_spec ⟨[]⟩
    ⟨"x", "T", ["A"], none, none, none, none, none, none, none⟩).2 rfl).2 (by simp)

/-- An undated citation (crate-root model), used by the C6 material. -/
def cUndated : Lib.Citation := ⟨"a", "T", ["A"], none, none, none, none, none, none, none⟩

/-- A citation dated year zero (crate-root model), used by the C6 material. -/
def cYearZero : Lib.Citation := ⟨"b", "T", ["A"], some 0, none, none, none, none, none, none⟩

/-- C6 counterexample: the claim places every undated citation after all
dated ones, but `sort_by_year` keys an absent year as zero, so an undated
citation inserted before a citation dated year zero stays before it (the
sort is stable and both keys are 0). -/
theorem c6_counterexample :
    Lib.Bibliography.sort_by_year ⟨[cUndated, cYearZero]⟩ = ⟨[cUndated, cYearZero]⟩ ∧
    cUndated.year = none ∧ cYearZero.year = some 0 := by
  have hfilter := sort_by_year_filter ⟨[cUndated, cYearZero]⟩ (fun c => Lib.yearKey c == 0)
    (by
      intro a b hA hB
      simp only [beq_iff_eq] at hA hB
      omega)
  have hmem : ∀ x ∈ (Lib.Bibliography.sort_by_year ⟨[cUndated, cYearZero]⟩).citations,
      (fun c => Lib.yearKey c == 0) x = true := by
    intro x hx
    have hx2 := (sort_by_year_perm ⟨[cUndated, cYearZero]⟩).mem_iff.mp hx
    rcases List.mem_cons.mp hx2 with rfl | h2
    · decide
    · rcases List.mem_cons.mp h2 with rfl | h3
      · decide
      · simp at h3
  have h1 := List.filter_eq_self.mpr hmem
  have h3 : List.filter (fun c => Lib.yearKey c == 0) [cUndated, cYearZero] =
      [cUndated, cYearZero] := by decide
  have hcit : (Lib.Bibliography.sort_by_year ⟨[cUndated, cYearZero]⟩).citations =
      [cUndated, cYearZero] := by
    rw [← h1, hfilter]
    exact h3
  exact ⟨congrArg Lib.Bibliography.mk hcit, rfl, rfl⟩

/-- C6 (amended): `sort_by_year` permutes the held citations into descending
order of the year key (`year.unwrap_or(0)`; the crate-root citations carry
only an optional year, so this is the restriction of the section 4.3 order),
is stable (the sublist of citations with any given key is preserved), and
every citation following an undated one has key zero — equivalently, undated
citations come after all citations with a positive year, but tie with
citations explicitly dated year zero. -/
theorem c6_sort_by_year_spec (bib : Lib.Bibliography) :
    (bib.sort_by_year).citations.Perm bib.citations ∧
    (bib.sort_by_year).citations.Pairwise (fun a b => Lib.yearKey b ≤ Lib.yearKey a) ∧
    (∀ k, (bib.sort_by_year).citations.filter (fun c => Lib.yearKey c == k) =
      bib.citations.filter (fun c => Lib.yearKey c == k)) ∧
    (bib.sort_by_year).citations.Pairwise (fun a b => a.year = none → Lib.yearKey b = 0) := by
  refine ⟨sort_by_year_perm bib, sort_by_year_pairwise bib, ?_, ?_⟩
  · intro k
    refine sort_by_year_filter bib _ ?_
    intro a b hA hB
    simp only [beq_iff_eq] at hA hB
    omega
  · refine (sort_by_year_pairwise bib).imp ?_
    intro a b hle hnone
    have ha : Lib.yearKey a = 0 := by simp [Lib.yearKey, hnone]
    omega

/-- C6 witness: the amended theorem applied to a concrete two-citation
bibliography (permutation and key-zero stability conjuncts). -/
theorem c6_sort_by_year_spec_witness :
    (Lib.Bibliography.sort_by_year ⟨[cUndated, cYearZero]⟩).citations.Perm
      [cUndated, cYearZero] ∧
    (Lib.Bibliography.sort_by_year ⟨[cUndated, cYearZero]⟩).citations.filter
        (fun c => Lib.yearKey c == 0) =
      [cUndated, cYearZero].filter (fun c => Lib.yearKey c == 0) :=
  ⟨(c6_sort_by_year_spec ⟨[cUndated, cYearZero]⟩).1,
    (c6_sort_by_year_spec ⟨[cUndated, cYearZero]⟩).2.2.1 0⟩

/-- C1 counterexample: `format_apa` / `format_ieee` on an `OnlineVideo`
citation reach `todo!()`, a panic (modelled `none`): no string and no typed
`UnsupportedStyleForMediaKind` value is returned to the caller, contrary to
the claim. -/
theorem c1_counterexample :
    Citation.format_apa (.OnlineVideo (.YouTube ⟨"v", none⟩ "T" none "Ch" ⟨⟨0⟩⟩)) = none ∧
    Citation.format_ieee (.OnlineVideo (.YouTube ⟨"v", none⟩ "T" none "Ch" ⟨⟨0⟩⟩)) = none :=
  ⟨rfl, rfl⟩

/-- C1 (amended): `Citation::format_apa` / `format_ieee` return a complete
formatted string for the `Book` variant whenever the author rendering does
not itself panic, and for every other media variant both formatters reach a
`todo!()` panic (no typed unsupported-style failure exists in the code). -/
theorem c1_format_dispatch (c : Citation) :
    (∀ b : Book, c = .Book b → b.author.as_apa_string ≠ none → (c.format_apa).isSome) ∧
    (∀ b : Book, c = .Book b → b.author.as_ieee_string ≠ none → (c.format_ieee).isSome) ∧
    ((∀ b : Book, c ≠ .Book b) → c.format_apa = none ∧ c.format_ieee = none) := by
  refine ⟨?_, ?_, ?_⟩
  · rintro b rfl hne
    obtain ⟨x, hx⟩ := Option.ne_none_iff_exists.mp hne
    simp [Citation.format_apa, ← hx]
  · rintro b rfl hne
    obtain ⟨x, hx⟩ := Option.ne_none_iff_exists.mp hne
    cases hp : b.common_data.published with
    | none => simp [Citation.format_ieee, ← hx, hp]
    | some pd =>
      cases pd <;>
        simp [Citation.format_ieee, ← hx, hp, PublishDate.month, PublishDate.day]
  · intro h
    cases c with
    | Book b => exact absurd rfl (h b)
    | ConferencePaperOnline x => exact ⟨rfl, rfl⟩
    | ConferenceProceedingsOnline x => exact ⟨rfl, rfl⟩
    | OnlineManual x => exact ⟨rfl, rfl⟩
    | OnlineVideo x => exact ⟨rfl, rfl⟩

/-- C1 witness: the amended theorem applied to a concrete book (both styles
render) and to a concrete video (both styles panic). -/
theorem c1_format_dispatch_witness :
    ((Citation.Book ⟨⟨"id2", some (.Year 2023)⟩, .Organization "Org", "T",
      none, none, none, none⟩).format_apa).isSome ∧
    ((Citation.Book ⟨⟨"id2", some (.Year 2023)⟩, .Organization "Org", "T",
      none, none, none, none⟩).format_ieee).isSome ∧
    (Citation.format_apa (.OnlineVideo (.YouTube ⟨"v2", none⟩ "T" none "Ch" ⟨⟨0⟩⟩)) = none ∧
     Citation.format_ieee (.OnlineVideo (.YouTube ⟨"v2", none⟩ "T" none "Ch" ⟨⟨0⟩⟩)) = none) :=
  ⟨(c1_format_dispatch _).1 _ rfl (by simp [GenericAuthor.as_apa_string]),
   (c1_format_dispatch _).2.1 _ rfl (by simp [GenericAuthor.as_ieee_string]),
   (c1_format_dispatch _).2.2 (by intro b h; simp at h)⟩
